import Mathlib

/-!
Verification of the reconciliation core of the NFLPenaltyInsights data
pipeline: team-alias resolution and game-key normalization
(`src/scripts/clean_penalties.py`), clock building and drive/penalty
interval assignment (`src/scripts/clean_drives.py`), and the per-team
penalty aggregation (`src/scripts/clean_games.py`).

Pandas dataframes are modelled as Lean lists of rows; dataframe columns
become record fields; `dict.get` lookups become `Option`-valued lookups;
per-record Python exceptions (`KeyError`, `ValueError`) become explicit
result constructors.  The IEEE-double arithmetic of
`compute_time_left_helper` in `clean_penalties.py` is not modelled: clock
conversion is covered through the integer arithmetic of `add_time_left`.
-/

namespace NFL

/-! ### Python string primitives

`str.split(sep)` and `sep.join(parts)` for a one-character separator,
implemented on the character list so that they evaluate inside the kernel.
-/

/-- Splits a character list at every occurrence of `sep`, keeping empty
segments, exactly like Python `str.split` with an explicit one-character
separator (`"a__b".split("_") == ["a", "", "b"]`, `"".split("_") == [""]`). -/
def splitCharAux (sep : Char) : List Char → List (List Char)
  | [] => [[]]
  | c :: rest =>
    let r := splitCharAux sep rest
    if c = sep then [] :: r
    else
      match r with
      | [] => [[c]]
      | h :: t => (c :: h) :: t

/-- Python `s.split(sep)` for a one-character separator `sep`. -/
def pySplit (s : String) (sep : Char) : List String :=
  (splitCharAux sep s.data).map (fun l => ⟨l⟩)

/-- Python `sep.join(parts)`. -/
def pyJoin (sep : String) (parts : List String) : String :=
  ⟨List.intercalate sep.data (parts.map String.data)⟩

/-! ### clean_penalties.py — team registry (`map_ids`) -/

/-- Table `team_id_mapping` of `map_ids` in `clean_penalties.py`: slug of the
`Team` column to canonical team code. -/
def team_id_mapping : List (String × String) :=
  [("arizona-cardinals", "ARI"), ("atlanta-falcons", "ATL"), ("baltimore-ravens", "BAL"),
   ("buffalo-bills", "BUF"), ("carolina-panthers", "CAR"), ("chicago-bears", "CHI"),
   ("cincinnati-bengals", "CIN"), ("cleveland-browns", "CLE"), ("dallas-cowboys", "DAL"),
   ("denver-broncos", "DEN"), ("detroit-lions", "DET"), ("green-bay-packers", "GB"),
   ("houston-texans", "HOU"), ("indianapolis-colts", "IND"), ("jacksonville-jaguars", "JAX"),
   ("kansas-city-chiefs", "KC"), ("las-vegas-raiders", "LV"), ("los-angeles-chargers", "LAC"),
   ("los-angeles-rams", "LAR"), ("miami-dolphins", "MIA"), ("minnesota-vikings", "MIN"),
   ("new-england-patriots", "NE"), ("new-orleans-saints", "NO"), ("new-york-giants", "NYG"),
   ("new-york-jets", "NYJ"), ("philadelphia-eagles", "PHI"), ("pittsburgh-steelers", "PIT"),
   ("san-francisco-49ers", "SF"), ("seattle-seahawks", "SEA"), ("tampa-bay-buccaneers", "TB"),
   ("tennessee-titans", "TEN"), ("washington-commanders", "WAS")]

/-- Table `opp_id_mapping` of `map_ids` in `clean_penalties.py`: display name
of the `Opp` column to canonical team code. -/
def opp_id_mapping : List (String × String) :=
  [("San Francisco", "SF"), ("Jacksonville", "JAX"), ("Arizona", "ARI"), ("Indianapolis", "IND"),
   ("Houston", "HOU"), ("Seattle", "SEA"), ("N.Y. Giants", "NYG"), ("Carolina", "CAR"),
   ("Chicago", "CHI"), ("St. Louis", "LAR"), ("Tennessee", "TEN"), ("Minnesota", "MIN"),
   ("Detroit", "DET"), ("Green Bay", "GB"), ("New Orleans", "NO"), ("Miami", "MIA"),
   ("New England", "NE"), ("Dallas", "DAL"), ("Washington", "WAS"), ("Tampa Bay", "TB"),
   ("Philadelphia", "PHI"), ("N.Y. Jets", "NYJ"), ("Buffalo", "BUF"), ("Kansas City", "KC"),
   ("San Diego", "LAC"), ("Cleveland", "CLE"), ("Cincinnati", "CIN"), ("Denver", "DEN"),
   ("Pittsburgh", "PIT"), ("Oakland", "LV"), ("Atlanta", "ATL"), ("Baltimore", "BAL"),
   ("LA Rams", "LAR"), ("LA Chargers", "LAC"), ("Las Vegas", "LV")]

/-- Lookup of one `Team` cell through `team_id_mapping`, as performed per row
by `penalties.Team.map(team_id_mapping)`.  An alias that is not a key of the
dictionary is mapped by pandas to `NaN`, modelled here as `none` (the
record-level resolution failure). -/
def resolveTeamId (s : String) : Option String :=
  team_id_mapping.lookup s

/-- Lookup of one `Opp` cell through `opp_id_mapping`, as performed per row by
`penalties.Opp.map(opp_id_mapping)`; `none` models `NaN` for an unknown
alias. -/
def resolveOppId (s : String) : Option String :=
  opp_id_mapping.lookup s

/-! ### clean_penalties.py — season year (`preprocess_data`) -/

/-- Season-year derivation of `preprocess_data` in `clean_penalties.py`:
`penalties.year = penalties.date.dt.year` followed by
`penalties.loc[penalties.date.dt.month <= 3, 'year'] -= 1`, applied to one
record whose game date has calendar year `y` and month `m`. -/
def season_year (y m : Int) : Int :=
  if m ≤ 3 then y - 1 else y

/-! ### clean_penalties.py — game-key normalization -/

/-- Reversed-order key built inside `verify_and_adjust_game_id`:
`parts = game_id.split('_')`, swap `parts[2]` and `parts[3]`, join with
underscores.  Returns `none` when the key has fewer than four parts, where
Python would raise `IndexError`. -/
def adjusted_game_id_of (game_id : String) : Option String :=
  match pySplit game_id '_' with
  | a :: b :: c :: d :: rest => some (pyJoin "_" (a :: b :: d :: c :: rest))
  | _ => none

/-- Function `verify_and_adjust_game_id` of `clean_penalties.py`, acting on
one record with key `game_id` and home flag `home` against the set
`valid_game_ids` (modelled as a list).  Returns the possibly adjusted
`(game_id, home)` pair; `none` models the `IndexError` raised when an
unmatched key does not have four underscore-separated parts. -/
def verify_and_adjust_game_id (game_id home : String) (valid : List String) :
    Option (String × String) :=
  if game_id ∈ valid then some (game_id, home)
  else
    match adjusted_game_id_of game_id with
    | none => none
    | some adjusted =>
      if adjusted ∈ valid then
        some (adjusted, if home = "Yes" then "No" else "Yes")
      else some (game_id, home)

/-- Result type of the normalizer as the specification describes it. -/
inductive NormalizeResult where
  | ok (game_id home : String)
  | unresolvedGameError
  deriving DecidableEq

/-- Modelled from the spec (section 4.2), for refinement comparison with
`verify_and_adjust_game_id`: if the forward key is known return it unchanged;
else if the reversed key is known return it with the orientation flag
inverted; if neither matches, fail with `UnresolvedGameError`. -/
def specNormalizeGameId (game_id home : String) (valid : List String) :
    NormalizeResult :=
  if game_id ∈ valid then .ok game_id home
  else
    match adjusted_game_id_of game_id with
    | none => .unresolvedGameError
    | some adjusted =>
      if adjusted ∈ valid then
        .ok adjusted (if home = "Yes" then "No" else "Yes")
      else .unresolvedGameError

/-! ### Clock building -/

/-- Per-row computation of `add_time_left` in `clean_drives.py`:
`60 * (60 - 15 * quarter) + 60 * mins + secs`, where `mins:secs` is the
row's clock string.  (`compute_time_left_helper` in `clean_penalties.py`
computes the same quantity through IEEE-double arithmetic and `int()`
truncation; its rounding behaviour is not modelled here.) -/
def add_time_left_row (quarter mins secs : Int) : Int :=
  60 * (60 - 15 * quarter) + 60 * mins + secs

/-! ### clean_drives.py — missing-quarter fill -/

/-- Body of the index loop of `fill_in_missing_quarters`: walking the rows in
order, a missing quarter is replaced by the previous row's (already
processed, hence known) quarter `prev`. -/
def fillQuartersGo (prev : Int) : List (Option Int) → List (Option Int)
  | [] => []
  | none :: rest => some prev :: fillQuartersGo prev rest
  | some q :: rest => some q :: fillQuartersGo q rest

/-- Function `fill_in_missing_quarters` of `clean_drives.py` on the `quarter`
column.  A missing quarter in the first row makes the loop read
`drives_df.loc[-1]`, which raises `KeyError`; that is modelled as `none`. -/
def fill_in_missing_quarters : List (Option Int) → Option (List (Option Int))
  | [] => some []
  | none :: _ => none
  | some q :: rest => some (some q :: fillQuartersGo q rest)

/-- Executable encoding of the invariant assumed by the claim: no two
consecutive rows both have a missing quarter. -/
def noConsecutiveMissing : List (Option Int) → Bool
  | [] => true
  | [_] => true
  | none :: none :: _ => false
  | _ :: b :: rest => noConsecutiveMissing (b :: rest)

/-! ### clean_drives.py — penalty-to-drive assignment (`main`) -/

/-- Row of the drives dataframe as the assignment loop of `clean_drives.main`
reads and writes it: its game key, its start time remaining, and its
per-penalty-category count columns. -/
structure DriveRow where
  game_id : String
  time_left : Int
  counts : String → Nat

/-- Event row of the penalties file as read by the loop of
`clean_drives.main`. -/
structure PenaltyEvent where
  Game_ID : String
  Time_Left : Int
  Phase_Penalty : String

/-- Outcome of processing one penalty row in `clean_drives.main`:
the row is skipped (`continue`, or guard false so no increment), a count is
incremented at a drive-row index, or pandas raises (`KeyError` from
incrementing past the last row, `ValueError` from unpacking a key without
exactly four parts). -/
inductive AssignResult where
  | skipped
  | incremented (rowIdx : Nat)
  | pandasError
  deriving DecidableEq

/-- Helper for `firstIndex`, carrying the running row index. -/
def firstIndexAux (g : String) : List DriveRow → Nat → Option Nat
  | [], _ => none
  | d :: rest, i => if d.game_id = g then some i else firstIndexAux g rest (i + 1)

/-- Lookup in the `game_id_to_index` dictionary of `clean_drives.main`, which
maps a game key to the first row index of that game in the drives dataframe
(first occurrence wins, as in the building loop). -/
def firstIndex (drives : List DriveRow) (g : String) : Option Nat :=
  firstIndexAux g drives 0

/-- Reversal used by `clean_drives.main`:
`year, week, team1, team2 = game_id.split('_')` (Python raises `ValueError`,
modelled as `none`, unless there are exactly four parts) followed by
`'_'.join([year, week, team2, team1])`. -/
def reverse_game_id (game_id : String) : Option String :=
  match pySplit game_id '_' with
  | [year, week, team1, team2] => some (pyJoin "_" [year, week, team2, team1])
  | _ => none

/-- The `while` loop of `clean_drives.main`: advance `drive_index` while the
next row exists, belongs to the same game, and has `time_left` strictly above
the event's `Time_Left`.  Fuel-indexed; `clean_drives.main` always supplies
fuel `drives.length`, which exceeds the number of possible steps. -/
def whileAdvance (drives : List DriveRow) (g : String) (t : Int) :
    Nat → Nat → Nat
  | 0, i => i
  | fuel + 1, i =>
    match drives.get? (i + 1) with
    | some d =>
      if d.game_id = g ∧ t < d.time_left then whileAdvance drives g t fuel (i + 1)
      else i
    | none => i

/-- Tail of the loop body of `clean_drives.main` once the game key `g` is
resolved to a first row index `i0`: run the `while` loop, then, when
`drives_df.loc[drive_index].time_left >= row.Time_Left`, increment the
penalty column at row `drive_index + 1` (pandas raises `KeyError` when that
row does not exist). -/
def runAssign (drives : List DriveRow) (g : String) (t : Int) (i0 : Nat) :
    AssignResult :=
  let i := whileAdvance drives g t drives.length i0
  match drives.get? i with
  | none => .pandasError
  | some d =>
    if t ≤ d.time_left then
      if i + 1 < drives.length then .incremented (i + 1) else .pandasError
    else .skipped

/-- One iteration of the penalty loop of `clean_drives.main`: look the key up
forward, then reversed, skipping the row when neither matches, and otherwise
run the advance-and-increment body. -/
def processPenalty (drives : List DriveRow) (p : PenaltyEvent) : AssignResult :=
  match firstIndex drives p.Game_ID with
  | some i0 => runAssign drives p.Game_ID p.Time_Left i0
  | none =>
    match reverse_game_id p.Game_ID with
    | none => .pandasError
    | some rid =>
      match firstIndex drives rid with
      | some i0 => runAssign drives rid p.Time_Left i0
      | none => .skipped

/-- Column update `drives_df.loc[j, cat] += 1`. -/
def incrementAt : List DriveRow → Nat → String → List DriveRow
  | [], _, _ => []
  | d :: rest, 0, cat =>
    { d with counts := fun c => if c = cat then d.counts c + 1 else d.counts c } :: rest
  | d :: rest, j + 1, cat => d :: incrementAt rest j cat

/-- Effect of one penalty row on the drives dataframe in `clean_drives.main`;
`none` models an uncaught pandas exception aborting the script. -/
def applyPenalty (drives : List DriveRow) (p : PenaltyEvent) :
    Option (List DriveRow) :=
  match processPenalty drives p with
  | .skipped => some drives
  | .incremented j => some (incrementAt drives j p.Phase_Penalty)
  | .pandasError => none

/-! ### clean_games.py — per-team-performance aggregation (`preprocess_data`) -/

/-- Penalty record as consumed by the aggregation block of `preprocess_data`
in `clean_games.py`. -/
structure PerfPenalty where
  game_id : String
  team_id : String
  penalty : String
  phase : String
  yardage : Int
  deriving DecidableEq

/-- Team-performance row restricted to the columns the aggregation block of
`preprocess_data` writes: identity, the per-category count columns, and the
four offense/defense totals. -/
structure PerfRow where
  game_id : String
  team_id : String
  cat : String → Nat
  total_off_pen : Nat
  total_def_pen : Nat
  total_off_pen_yards : Int
  total_def_pen_yards : Int

/-- Number of occurrences of category `c` in the penalties file, one entry of
`penalty_df['penalty'].value_counts()`. -/
def catCount (pens : List PerfPenalty) (c : String) : Nat :=
  (pens.filter (fun p => p.penalty = c)).length

/-- List `frequent_penalties` of `preprocess_data`: the categories whose
occurrence count is at least 50. -/
def frequent_penalties (pens : List PerfPenalty) : List String :=
  ((pens.map (fun p => p.penalty)).dedup).filter (fun c => 50 ≤ catCount pens c)

/-- Dataframe `filtered_penalties` of `preprocess_data`: penalties whose
phase is not special teams and whose category is frequent. -/
def filtered_penalties (pens : List PerfPenalty) : List PerfPenalty :=
  pens.filter (fun p => ¬p.phase = "ST" ∧ p.penalty ∈ frequent_penalties pens)

/-- Fresh team-performance row with every penalty column and total
initialized to zero, as done by the initialization loops of
`preprocess_data`. -/
def initPerfRow (g t : String) : PerfRow :=
  { game_id := g, team_id := t, cat := fun _ => 0,
    total_off_pen := 0, total_def_pen := 0,
    total_off_pen_yards := 0, total_def_pen_yards := 0 }

/-- Body of the increment loop of `preprocess_data` for one filtered penalty
record: on every row matching the `(game_id, team_id)` mask and when the
phase is offense or defense, bump the per-category count, the matching total
count and the matching total yardage. -/
def applyPerfPenalty (rows : List PerfRow) (p : PerfPenalty) : List PerfRow :=
  rows.map (fun r =>
    if r.game_id = p.game_id ∧ r.team_id = p.team_id then
      if p.phase = "Off" ∨ p.phase = "Def" then
        { r with
          cat := fun c => if c = p.penalty then r.cat c + 1 else r.cat c,
          total_off_pen := if p.phase = "Off" then r.total_off_pen + 1 else r.total_off_pen,
          total_def_pen := if p.phase = "Off" then r.total_def_pen else r.total_def_pen + 1,
          total_off_pen_yards :=
            if p.phase = "Off" then r.total_off_pen_yards + p.yardage else r.total_off_pen_yards,
          total_def_pen_yards :=
            if p.phase = "Off" then r.total_def_pen_yards else r.total_def_pen_yards + p.yardage }
      else r
    else r)

/-- Aggregation block of `preprocess_data` in `clean_games.py`: initialize the
penalty columns and totals to zero for every `(game_id, team_id)` row of the
team-performance frame, then fold the increment loop over the filtered
penalties only. -/
def penalty_aggregation (basis : List (String × String)) (pens : List PerfPenalty) :
    List PerfRow :=
  (filtered_penalties pens).foldl applyPerfPenalty
    (basis.map (fun gt => initPerfRow gt.1 gt.2))

/-! ## Helper lemmas -/

lemma lookup_eq_none_iff (m : List (String × String)) (s : String) :
    m.lookup s = none ↔ ∀ p ∈ m, p.1 ≠ s := by
  induction m with
  | nil => simp [List.lookup]
  | cons a rest ih =>
    obtain ⟨k, v⟩ := a
    cases hbe : s == k with
    | true =>
      have hk : s = k := eq_of_beq hbe
      subst hk
      simp [List.lookup]
    | false =>
      have hk : ¬k = s := fun h => by simp [h] at hbe
      simp only [List.lookup, hbe, ih, List.mem_cons]
      constructor
      · rintro hrest p (rfl | hp)
        · exact hk
        · exact hrest p hp
      · intro hall p hp
        exact hall p (Or.inr hp)

lemma lookup_mem (m : List (String × String)) (s v : String)
    (h : m.lookup s = some v) : (s, v) ∈ m := by
  induction m with
  | nil => simp [List.lookup] at h
  | cons a rest ih =>
    obtain ⟨k, w⟩ := a
    cases hbe : s == k with
    | true =>
      have hk : s = k := eq_of_beq hbe
      subst hk
      simp only [List.lookup, hbe] at h
      cases h
      exact List.mem_cons_self _ _
    | false =>
      simp only [List.lookup, hbe] at h
      exact List.mem_cons_of_mem _ (ih h)

lemma mem_keys_unique (m : List (String × String))
    (hnd : (m.map Prod.fst).Nodup) (s v w : String)
    (hv : (s, v) ∈ m) (hw : (s, w) ∈ m) : v = w := by
  induction m with
  | nil => simp at hv
  | cons a rest ih =>
    obtain ⟨hk, hrest⟩ := List.nodup_cons.mp hnd
    rcases List.mem_cons.mp hv with rfl | hv'
    · rcases List.mem_cons.mp hw with h | hw'
      · cases h; rfl
      · exact absurd (List.mem_map_of_mem Prod.fst hw') (by simpa using hk)
    · rcases List.mem_cons.mp hw with rfl | hw'
      · exact absurd (List.mem_map_of_mem Prod.fst hv') (by simpa using hk)
      · exact ih hrest hv' hw'

lemma team_keys_nodup : (team_id_mapping.map Prod.fst).Nodup := by decide

lemma opp_keys_nodup : (opp_id_mapping.map Prod.fst).Nodup := by decide

lemma firstIndex_head (drives : List DriveRow) (g : String)
    (hne : drives ≠ []) (hall : ∀ d ∈ drives, d.game_id = g) :
    firstIndex drives g = some 0 := by
  cases drives with
  | nil => exact absurd rfl hne
  | cons d rest =>
    have hd : d.game_id = g := hall d (List.mem_cons_self _ _)
    simp [firstIndex, firstIndexAux, hd]

lemma whileAdvance_eq (drives : List DriveRow) (g : String) (t : Int) (k : Nat) :
    ∀ fuel i, i ≤ k → k - i ≤ fuel →
    (∀ m, i < m → m ≤ k →
      ∃ d, drives.get? m = some d ∧ d.game_id = g ∧ t < d.time_left) →
    (∀ d, drives.get? (k + 1) = some d → ¬(d.game_id = g ∧ t < d.time_left)) →
    whileAdvance drives g t fuel i = k := by
  intro fuel
  induction fuel with
  | zero =>
    intro i h1 h2 _ _
    have : i = k := by omega
    simp [whileAdvance, this]
  | succ fuel ih =>
    intro i h1 h2 hmid hstop
    rcases Nat.eq_or_lt_of_le h1 with heq | hlt
    · subst heq
      cases hk1 : drives.get? (i + 1) with
      | none => simp only [whileAdvance, hk1]
      | some d =>
        have hne := hstop d hk1
        simp only [whileAdvance, hk1]
        rw [if_neg hne]
    · obtain ⟨d, hd, hdg, hdt⟩ := hmid (i + 1) (by omega) (by omega)
      have hstep : whileAdvance drives g t (fuel + 1) i =
          whileAdvance drives g t fuel (i + 1) := by
        simp only [whileAdvance, hd]
        rw [if_pos ⟨hdg, hdt⟩]
      rw [hstep]
      exact ih (i + 1) (by omega) (by omega)
        (fun m hm1 hm2 => hmid m (by omega) hm2) hstop

/-- Characterization of the assignment loop of `clean_drives.main` on a
single-game drive list that is sorted by non-increasing `time_left`: if the
drive at index `k` starts strictly above the event time and the drive at
index `k + 1` starts at or below it, the loop stops at `k` and the increment
is applied to row `k + 1`. -/
lemma processPenalty_boundary (drives : List DriveRow) (g : String) (t : Int)
    (cat : String) (k : Nat) (dk dk1 : DriveRow)
    (hall : ∀ d ∈ drives, d.game_id = g)
    (hpair : List.Pairwise (fun a b : DriveRow => b.time_left ≤ a.time_left) drives)
    (hk : drives.get? k = some dk) (hk1 : drives.get? (k + 1) = some dk1)
    (ht : t < dk.time_left) (ht1 : dk1.time_left ≤ t) :
    processPenalty drives ⟨g, t, cat⟩ = .incremented (k + 1) := by
  obtain ⟨hklen, hkget⟩ := List.get?_eq_some.mp hk
  obtain ⟨hk1len, hk1get⟩ := List.get?_eq_some.mp hk1
  have hne : drives ≠ [] := by
    intro h
    rw [h] at hk
    simp at hk
  have hmono : ∀ (i j : Nat) (di dj : DriveRow), i ≤ j →
      drives.get? i = some di → drives.get? j = some dj →
      dj.time_left ≤ di.time_left := by
    intro i j di dj hij hi hj
    rcases Nat.lt_or_ge i j with hlt | hge
    · obtain ⟨hi', hgi⟩ := List.get?_eq_some.mp hi
      obtain ⟨hj', hgj⟩ := List.get?_eq_some.mp hj
      have hp := List.pairwise_iff_get.mp hpair ⟨i, hi'⟩ ⟨j, hj'⟩ hlt
      rw [hgi, hgj] at hp
      exact hp
    · have heq : i = j := le_antisymm hij hge
      subst heq
      rw [hi] at hj
      cases hj
      exact le_refl _
  have hwa : whileAdvance drives g t drives.length 0 = k := by
    apply whileAdvance_eq drives g t k drives.length 0 (Nat.zero_le k) (by omega)
    · intro m hm0 hmk
      have hmlen : m < drives.length := by omega
      refine ⟨drives.get ⟨m, hmlen⟩, (List.get?_eq_get hmlen), ?_, ?_⟩
      · exact hall _ (List.get_mem drives m hmlen)
      · have := hmono m k (drives.get ⟨m, hmlen⟩) dk hmk (List.get?_eq_get hmlen) hk
        omega
    · intro d hd hcond
      rw [hk1] at hd
      cases hd
      omega
  simp only [processPenalty, firstIndex_head drives g hne hall, runAssign, hwa, hk]
  rw [if_pos (le_of_lt ht), if_pos hk1len]

lemma mem_frequent_iff (pens : List PerfPenalty) (c : String) :
    c ∈ frequent_penalties pens ↔ 50 ≤ catCount pens c := by
  unfold frequent_penalties
  rw [List.mem_filter]
  constructor
  · intro h
    simpa using h.2
  · intro h
    refine ⟨?_, by simpa using h⟩
    have hpos : 0 < (pens.filter (fun p => p.penalty = c)).length := by
      unfold catCount at h
      omega
    obtain ⟨p, hp⟩ := List.exists_mem_of_length_pos hpos
    have := List.mem_filter.mp hp
    have hpc : p.penalty = c := by simpa using this.2
    rw [List.mem_dedup]
    exact hpc ▸ List.mem_map_of_mem (fun p => p.penalty) this.1

lemma fillQuartersGo_length (prev : Int) (l : List (Option Int)) :
    (fillQuartersGo prev l).length = l.length := by
  induction l generalizing prev with
  | nil => rfl
  | cons a rest ih =>
    cases a with
    | none => simp [fillQuartersGo, ih]
    | some q => simp [fillQuartersGo, ih]

lemma fillQuartersGo_known (prev : Int) (l : List (Option Int)) :
    ∀ i v, l.get? i = some (some v) →
      (fillQuartersGo prev l).get? i = some (some v) := by
  induction l generalizing prev with
  | nil => intro i v h; simp at h
  | cons a rest ih =>
    intro i v h
    cases a with
    | none =>
      cases i with
      | zero => simp at h
      | succ i => simpa [fillQuartersGo] using ih prev i v (by simpa using h)
    | some q =>
      cases i with
      | zero => simpa [fillQuartersGo] using h
      | succ i => simpa [fillQuartersGo] using ih q i v (by simpa using h)

lemma fillQuartersGo_some (prev : Int) (l : List (Option Int)) :
    ∀ i o, (fillQuartersGo prev l).get? i = some o → o ≠ none := by
  induction l generalizing prev with
  | nil => intro i o h; simp [fillQuartersGo] at h
  | cons a rest ih =>
    intro i o h
    cases a with
    | none =>
      cases i with
      | zero =>
        simp [fillQuartersGo] at h
        simp [← h]
      | succ i => exact ih prev i o (by simpa [fillQuartersGo] using h)
    | some q =>
      cases i with
      | zero =>
        simp [fillQuartersGo] at h
        simp [← h]
      | succ i => exact ih q i o (by simpa [fillQuartersGo] using h)

lemma fillQuartersGo_head_missing (prev : Int) (l : List (Option Int))
    (h : l.get? 0 = some none) :
    (fillQuartersGo prev l).get? 0 = some (some prev) := by
  cases l with
  | nil => simp at h
  | cons a rest =>
    cases a with
    | none => simp [fillQuartersGo]
    | some q => simp at h

lemma noConsecutiveMissing_head (rest : List (Option Int))
    (h : noConsecutiveMissing ((none : Option Int) :: rest) = true) :
    rest.get? 0 ≠ some none := by
  cases rest with
  | nil => simp
  | cons b rest2 =>
    cases b with
    | none => simp [noConsecutiveMissing] at h
    | some r => simp

lemma noConsecutiveMissing_cons_known (x : Int) (a : Option Int)
    (rest : List (Option Int))
    (h : noConsecutiveMissing (a :: rest) = true) :
    noConsecutiveMissing (some x :: rest) = true := by
  cases rest with
  | nil => rfl
  | cons b rest2 =>
    cases a with
    | none =>
      cases b with
      | none => simp [noConsecutiveMissing] at h
      | some r =>
        simp only [noConsecutiveMissing] at h ⊢
        exact h
    | some q =>
      simp only [noConsecutiveMissing] at h ⊢
      exact h

lemma fillQuartersGo_missing (prev : Int) (l : List (Option Int))
    (hnc : noConsecutiveMissing (some prev :: l) = true) :
    ∀ i, l.get? (i + 1) = some none →
      (fillQuartersGo prev l).get? (i + 1) = l.get? i := by
  induction l generalizing prev with
  | nil => intro i h; simp at h
  | cons a rest ih =>
    intro i h
    have hnc1 : noConsecutiveMissing (a :: rest) = true := by
      cases rest with
      | nil => cases a <;> rfl
      | cons b rest2 =>
        cases a with
        | none => simpa only [noConsecutiveMissing] using hnc
        | some q => simpa only [noConsecutiveMissing] using hnc
    cases a with
    | none =>
      cases i with
      | zero =>
        exfalso
        exact noConsecutiveMissing_head rest hnc1 (by simpa using h)
      | succ i =>
        have hnc2 : noConsecutiveMissing (some prev :: rest) = true :=
          noConsecutiveMissing_cons_known prev none rest hnc1
        simpa [fillQuartersGo] using ih prev hnc2 i (by simpa using h)
    | some q =>
      cases i with
      | zero =>
        simpa [fillQuartersGo] using
          fillQuartersGo_head_missing q rest (by simpa using h)
      | succ i =>
        have hnc2 : noConsecutiveMissing (some q :: rest) = true :=
          noConsecutiveMissing_cons_known q (some q) rest hnc1
        simpa [fillQuartersGo] using ih q hnc2 i (by simpa using h)

/-! ## Claim C1 — interval assignment at an interior event time -/

/-- Claim C1, counterexample: for a game with drives starting at
`[3600, 1800, 900, 0]`, the assignment loop of `clean_drives.main` increments
the penalty count of an event at time-remaining 1000 on the row of index 2
(the drive starting at 900), not on index 1 (the drive starting at 1800) as
the claim states. -/
theorem C1_counterexample :
    processPenalty
      [⟨"G", 3600, fun _ => 0⟩, ⟨"G", 1800, fun _ => 0⟩,
       ⟨"G", 900, fun _ => 0⟩, ⟨"G", 0, fun _ => 0⟩]
      ⟨"G", 1000, "Off_Holding"⟩ = .incremented 2 ∧
    ¬(processPenalty
      [⟨"G", 3600, fun _ => 0⟩, ⟨"G", 1800, fun _ => 0⟩,
       ⟨"G", 900, fun _ => 0⟩, ⟨"G", 0, fun _ => 0⟩]
      ⟨"G", 1000, "Off_Holding"⟩ = .incremented 1) ∧
    (([⟨"G", 3600, fun _ => 0⟩, ⟨"G", 1800, fun _ => 0⟩,
       ⟨"G", 900, fun _ => 0⟩, ⟨"G", 0, fun _ => 0⟩] :
        List DriveRow).get? 2).map (fun d => d.time_left) = some 900 :=
  ⟨by decide, by decide, by decide⟩

/-- Claim C1 as amended: in a single-game drive list sorted by non-increasing
start time-remaining, an event with time-remaining `t` has its penalty count
incremented on the row FOLLOWING the latest drive whose start time-remaining
is strictly greater than `t`: if drive `k` starts strictly above `t` and
drive `k + 1` starts at or below `t`, the increment lands on row `k + 1`.
(For drives `[3600, 1800, 900, 0]` and `t = 1000` this is index 2, the drive
starting at 900.) -/
theorem C1_thm (drives : List DriveRow) (g : String) (t : Int)
    (cat : String) (k : Nat) (dk dk1 : DriveRow)
    (hall : ∀ d ∈ drives, d.game_id = g)
    (hpair : List.Pairwise (fun a b : DriveRow => b.time_left ≤ a.time_left) drives)
    (hk : drives.get? k = some dk) (hk1 : drives.get? (k + 1) = some dk1)
    (ht : t < dk.time_left) (ht1 : dk1.time_left ≤ t) :
    processPenalty drives ⟨g, t, cat⟩ = .incremented (k + 1) :=
  processPenalty_boundary drives g t cat k dk dk1 hall hpair hk hk1 ht ht1

/-- Claim C1, witness: the amended rule evaluated on the boundary scenario of
the claim. -/
theorem C1_witness :
    processPenalty
      [⟨"G", 3600, fun _ => 0⟩, ⟨"G", 1800, fun _ => 0⟩,
       ⟨"G", 900, fun _ => 0⟩, ⟨"G", 0, fun _ => 0⟩]
      ⟨"G", 1000, "Off_Holding"⟩ = .incremented 2 :=
  C1_thm
    [⟨"G", 3600, fun _ => 0⟩, ⟨"G", 1800, fun _ => 0⟩,
     ⟨"G", 900, fun _ => 0⟩, ⟨"G", 0, fun _ => 0⟩]
    "G" 1000 "Off_Holding" 1 ⟨"G", 1800, fun _ => 0⟩ ⟨"G", 900, fun _ => 0⟩
    (by decide) (by decide) rfl rfl (by decide) (by decide)

/-! ## Claim C2 — tie-break between drives with equal start time -/

/-- Claim C2, counterexample: with drives starting at
`[3600, 1800, 1800, 900]` (indices 1 and 2 tied at 1800), an event at
time-remaining 1800 has its count incremented on index 1, the EARLIER of the
tied pair, not on index 2 as the claim states. -/
theorem C2_counterexample :
    processPenalty
      [⟨"G", 3600, fun _ => 0⟩, ⟨"G", 1800, fun _ => 0⟩,
       ⟨"G", 1800, fun _ => 0⟩, ⟨"G", 900, fun _ => 0⟩]
      ⟨"G", 1800, "Off_Holding"⟩ = .incremented 1 ∧
    ¬(processPenalty
      [⟨"G", 3600, fun _ => 0⟩, ⟨"G", 1800, fun _ => 0⟩,
       ⟨"G", 1800, fun _ => 0⟩, ⟨"G", 900, fun _ => 0⟩]
      ⟨"G", 1800, "Off_Holding"⟩ = .incremented 2) :=
  ⟨by decide, by decide⟩

/-- Claim C2 as amended: when two consecutive drives `k + 1` and `k + 2`
share the same start time-remaining `t` and drive `k` starts strictly above
`t`, an event at time-remaining `t` is counted on index `k + 1` — the
EARLIER of the tied pair (the row following the last drive whose start
strictly exceeds the boundary value). -/
theorem C2_thm (drives : List DriveRow) (g : String) (t : Int)
    (cat : String) (k : Nat) (dk dk1 dk2 : DriveRow)
    (hall : ∀ d ∈ drives, d.game_id = g)
    (hpair : List.Pairwise (fun a b : DriveRow => b.time_left ≤ a.time_left) drives)
    (hk : drives.get? k = some dk) (hk1 : drives.get? (k + 1) = some dk1)
    (_hk2 : drives.get? (k + 2) = some dk2)
    (ht : t < dk.time_left) (htie1 : dk1.time_left = t)
    (_htie2 : dk2.time_left = t) :
    processPenalty drives ⟨g, t, cat⟩ = .incremented (k + 1) :=
  processPenalty_boundary drives g t cat k dk dk1 hall hpair hk hk1 ht
    (le_of_eq htie1)

/-- Claim C2, witness: the amended tie rule evaluated on the tie scenario of
the claim. -/
theorem C2_witness :
    processPenalty
      [⟨"G", 3600, fun _ => 0⟩, ⟨"G", 1800, fun _ => 0⟩,
       ⟨"G", 1800, fun _ => 0⟩, ⟨"G", 900, fun _ => 0⟩]
      ⟨"G", 1800, "Off_Holding"⟩ = .incremented 1 :=
  C2_thm
    [⟨"G", 3600, fun _ => 0⟩, ⟨"G", 1800, fun _ => 0⟩,
     ⟨"G", 1800, fun _ => 0⟩, ⟨"G", 900, fun _ => 0⟩]
    "G" 1800 "Off_Holding" 0 ⟨"G", 3600, fun _ => 0⟩ ⟨"G", 1800, fun _ => 0⟩
    ⟨"G", 1800, fun _ => 0⟩
    (by decide) (by decide) rfl rfl rfl (by decide) rfl rfl

/-! ## Claim C3 — events past the last drive boundary of a game -/

/-- Claim C3: the claim states that an event below every drive boundary of
its game is assigned to that game's final drive, touching only rows of that
game.  The code instead increments the row at `drive_index + 1`: for a game
`A` with drives `[3600, 0]` followed by a game `B`, an overtime event of game
`A` at time-remaining −120 is counted on row index 2 — the first drive of
game `B` — and when game `A` is the last game of the file the increment
targets a row past the end of the dataframe, raising a pandas `KeyError`. -/
theorem C3_thm :
    processPenalty
      [⟨"A", 3600, fun _ => 0⟩, ⟨"A", 0, fun _ => 0⟩, ⟨"B", 3600, fun _ => 0⟩]
      ⟨"A", -120, "Off_Holding"⟩ = .incremented 2 ∧
    (([⟨"A", 3600, fun _ => 0⟩, ⟨"A", 0, fun _ => 0⟩, ⟨"B", 3600, fun _ => 0⟩] :
        List DriveRow).get? 2).map (fun d => d.game_id) = some "B" ∧
    processPenalty [⟨"A", 3600, fun _ => 0⟩, ⟨"A", 0, fun _ => 0⟩]
      ⟨"A", -120, "Off_Holding"⟩ = .pandasError :=
  ⟨by decide, by decide, by decide⟩

/-! ## Claim C4 — records whose key matches in neither orientation -/

/-- Claim C4, counterexample: on a record whose forward and reversed keys are
both unknown, `verify_and_adjust_game_id` does NOT fail: it returns the
record's key and flag unchanged, the same success-shaped output it produces
when the forward key is valid, whereas the spec-modelled normalizer fails
with `UnresolvedGameError`. -/
theorem C4_counterexample :
    specNormalizeGameId "2020_1_AAA_BBB" "Yes" ["2020_1_CCC_DDD"] =
      .unresolvedGameError ∧
    verify_and_adjust_game_id "2020_1_AAA_BBB" "Yes" ["2020_1_CCC_DDD"] =
      some ("2020_1_AAA_BBB", "Yes") ∧
    verify_and_adjust_game_id "2020_1_AAA_BBB" "Yes" ["2020_1_AAA_BBB"] =
      some ("2020_1_AAA_BBB", "Yes") :=
  ⟨by decide, by decide, by decide⟩

/-- Claim C4 as amended: when neither the forward key nor the reversed key
is in the valid set, `verify_and_adjust_game_id` returns the record's key
and home flag unchanged (no error value is produced and no diagnostic count
exists); downstream, the drive-assignment loop of `clean_drives.main` skips
such a record after both lookups fail, so it contributes to no drive
aggregate. -/
theorem C4_thm (game_id home : String) (valid : List String)
    (adj rid : String) (drives : List DriveRow) (t : Int) (cat : String)
    (hadj : adjusted_game_id_of game_id = some adj)
    (hrev : reverse_game_id game_id = some rid)
    (hgv : game_id ∉ valid) (hav : adj ∉ valid)
    (hfi : firstIndex drives game_id = none)
    (hfr : firstIndex drives rid = none) :
    verify_and_adjust_game_id game_id home valid = some (game_id, home) ∧
    processPenalty drives ⟨game_id, t, cat⟩ = .skipped ∧
    applyPenalty drives ⟨game_id, t, cat⟩ = some drives := by
  have h2 : processPenalty drives ⟨game_id, t, cat⟩ = .skipped := by
    simp only [processPenalty, hfi, hrev, hfr]
  refine ⟨?_, h2, by simp only [applyPenalty, h2]⟩
  simp only [verify_and_adjust_game_id, if_neg hgv, hadj]
  rw [if_neg hav]

/-- Claim C4, witness: the amended behaviour evaluated on a concrete
unmatched record. -/
theorem C4_witness :
    verify_and_adjust_game_id "2020_1_AAA_BBB" "Yes" ["2020_1_CCC_DDD"] =
      some ("2020_1_AAA_BBB", "Yes") ∧
    processPenalty [⟨"2020_1_EEE_FFF", 3600, fun _ => 0⟩]
      ⟨"2020_1_AAA_BBB", 1000, "Off_Holding"⟩ = .skipped ∧
    applyPenalty [⟨"2020_1_EEE_FFF", 3600, fun _ => 0⟩]
      ⟨"2020_1_AAA_BBB", 1000, "Off_Holding"⟩ =
      some [⟨"2020_1_EEE_FFF", 3600, fun _ => 0⟩] :=
  C4_thm "2020_1_AAA_BBB" "Yes" ["2020_1_CCC_DDD"] "2020_1_BBB_AAA"
    "2020_1_BBB_AAA" [⟨"2020_1_EEE_FFF", 3600, fun _ => 0⟩] 1000 "Off_Holding"
    (by decide) (by decide) (by decide) (by decide) (by decide) (by decide)

/-! ## Claim C5 — reversed-key fallback of the normalizer -/

/-- Claim C5 (confirmed): for a record whose forward key is not in the valid
set but whose reversed key (the two team codes swapped) is,
`verify_and_adjust_game_id` returns the reversed key and inverts the home
flag; a record whose forward key is already valid is returned with key and
flag unchanged. -/
theorem C5_thm (game_id home : String) (valid : List String)
    (adj : String) (hadj : adjusted_game_id_of game_id = some adj) :
    (game_id ∈ valid →
      verify_and_adjust_game_id game_id home valid = some (game_id, home)) ∧
    (game_id ∉ valid → adj ∈ valid →
      verify_and_adjust_game_id game_id home valid =
        some (adj, if home = "Yes" then "No" else "Yes")) := by
  constructor
  · intro hmem
    simp only [verify_and_adjust_game_id, if_pos hmem]
  · intro hnot hmem
    simp only [verify_and_adjust_game_id, if_neg hnot, hadj]
    rw [if_pos hmem]

/-- Claim C5, witness: both branches evaluated on a concrete record. -/
theorem C5_witness :
    verify_and_adjust_game_id "2020_1_AAA_BBB" "Yes" ["2020_1_BBB_AAA"] =
      some ("2020_1_BBB_AAA", "No") ∧
    verify_and_adjust_game_id "2020_1_AAA_BBB" "Yes" ["2020_1_AAA_BBB"] =
      some ("2020_1_AAA_BBB", "Yes") := by
  constructor
  · have h := (C5_thm "2020_1_AAA_BBB" "Yes" ["2020_1_BBB_AAA"]
      "2020_1_BBB_AAA" (by decide)).2 (by decide) (by decide)
    simpa using h
  · exact (C5_thm "2020_1_AAA_BBB" "Yes" ["2020_1_AAA_BBB"]
      "2020_1_BBB_AAA" (by decide)).1 (by decide)

/-! ## Claim C6 — aggregation filter and the offense/defense totals -/

/-- Claim C6, counterexample: a single offensive penalty whose category
occurs below the 50-occurrence support threshold is dropped by
`filtered_penalties` BEFORE the increment loop of `preprocess_data` runs, so
it contributes neither to its category column nor to `total_off_pen` or
`total_off_pen_yards` of its `(game, team)` row — contradicting the claim
that it still contributes to the totals. -/
theorem C6_counterexample :
    (penalty_aggregation [("G1", "T1")]
        [⟨"G1", "T1", "Off_Holding", "Off", 10⟩]).head?.map
      (fun r => (r.total_off_pen, r.total_off_pen_yards)) = some (0, 0) ∧
    ¬((penalty_aggregation [("G1", "T1")]
        [⟨"G1", "T1", "Off_Holding", "Off", 10⟩]).head?.map
      (fun r => (r.total_off_pen, r.total_off_pen_yards)) = some (1, 10)) :=
  ⟨by decide, by decide⟩

/-- Claim C6 as amended: an event whose category occurs below the minimum
support threshold, or whose phase is special teams, is excluded from the
aggregation entirely — the increment loop of `preprocess_data` consumes only
`filtered_penalties`, every member of which has a non-special-teams phase
and a category with at least 50 occurrences, so an excluded event
contributes neither to the per-category columns nor to the offense/defense
total count and total yardage columns. -/
theorem C6_thm (pens : List PerfPenalty) (p : PerfPenalty) :
    (p ∈ filtered_penalties pens →
      ¬p.phase = "ST" ∧ 50 ≤ catCount pens p.penalty) ∧
    ((p.phase = "ST" ∨ catCount pens p.penalty < 50) →
      p ∉ filtered_penalties pens) := by
  have hmem : ∀ q : PerfPenalty, q ∈ filtered_penalties pens ↔
      q ∈ pens ∧ (¬q.phase = "ST" ∧ q.penalty ∈ frequent_penalties pens) := by
    intro q
    unfold filtered_penalties
    rw [List.mem_filter]
    simp only [decide_eq_true_eq]
  constructor
  · intro hp
    obtain ⟨-, hst, hfreq⟩ := (hmem p).mp hp
    exact ⟨hst, (mem_frequent_iff pens p.penalty).mp hfreq⟩
  · rintro (hst | hcnt) hp
    · obtain ⟨-, hst2, -⟩ := (hmem p).mp hp
      exact hst2 hst
    · obtain ⟨-, -, hfreq⟩ := (hmem p).mp hp
      have := (mem_frequent_iff pens p.penalty).mp hfreq
      omega

/-- Claim C6, witness: the exclusion evaluated on the concrete
below-threshold record of the counterexample. -/
theorem C6_witness :
    (⟨"G1", "T1", "Off_Holding", "Off", 10⟩ : PerfPenalty) ∉
      filtered_penalties [⟨"G1", "T1", "Off_Holding", "Off", 10⟩] :=
  (C6_thm [⟨"G1", "T1", "Off_Holding", "Off", 10⟩]
    ⟨"G1", "T1", "Off_Holding", "Off", 10⟩).2 (Or.inr (by decide))

/-! ## Claim C7 — time remaining from quarter and clock -/

/-- Claim C7, counterexample: at quarter 5 with the clock reading 15:00
(start of a 15-minute overtime period) the computed time remaining is 0, not
negative, so the value is not negative for EVERY overtime record. -/
theorem C7_counterexample :
    add_time_left_row 5 15 0 = 0 ∧ ¬(add_time_left_row 5 15 0 < 0) :=
  ⟨by decide, by decide⟩

/-- Claim C7 as amended: for every record with quarter `q`, clock minutes
`m` and clock seconds `s`, the time remaining computed by the integer
arithmetic of `add_time_left` in `clean_drives.py` equals
`(4 - q) * 900 + 60 * m + s`, and the value is negative for overtime
quarters (`q ≥ 5`) whenever the clock reads strictly less than a full
period (`60 * m + s < 900`); at exactly 15:00 of quarter 5 it is 0.  The
second implementation of the same quantity, `compute_time_left_helper` in
`clean_penalties.py`, goes through IEEE-double arithmetic and `int()`
truncation and does not satisfy the exact equality on all records; its
floating-point rounding is outside this embedding. -/
theorem C7_thm (q m s : Int) :
    add_time_left_row q m s = (4 - q) * 900 + 60 * m + s ∧
    (5 ≤ q → 60 * m + s < 900 → add_time_left_row q m s < 0) := by
  refine ⟨by unfold add_time_left_row; ring, ?_⟩
  intro hq hms
  unfold add_time_left_row
  linarith

/-- Claim C7, witness: the computation evaluated at quarter 5, clock 2:30,
yielding −750 seconds. -/
theorem C7_witness :
    add_time_left_row 5 2 30 = -750 ∧ add_time_left_row 5 2 30 < 0 := by
  have h := C7_thm 5 2 30
  refine ⟨?_, h.2 (by decide) (by decide)⟩
  rw [h.1]
  decide

/-! ## Claim C8 — carry-forward fill of missing quarters -/

/-- Claim C8 (confirmed): on a drive sequence whose first row has a known
quarter and in which missing quarters occur only immediately after rows with
known quarters, `fill_in_missing_quarters` terminates without touching the
out-of-range row −1, leaves every known quarter unchanged, sets every
missing quarter to the preceding row's quarter, and leaves no quarter
missing. -/
theorem C8_thm (qs : List (Option Int))
    (hhead : qs.head? ≠ some none)
    (hcons : noConsecutiveMissing qs = true) :
    ∃ out, fill_in_missing_quarters qs = some out ∧
      out.length = qs.length ∧
      (∀ i v, qs.get? i = some (some v) → out.get? i = some (some v)) ∧
      (∀ i, qs.get? (i + 1) = some none → out.get? (i + 1) = qs.get? i) ∧
      (∀ i o, out.get? i = some o → o ≠ none) := by
  cases qs with
  | nil =>
    refine ⟨[], rfl, rfl, ?_, ?_, ?_⟩
    · intro i v h; simp at h
    · intro i h; simp at h
    · intro i o h; simp at h
  | cons a rest =>
    cases a with
    | none => simp at hhead
    | some q =>
      refine ⟨some q :: fillQuartersGo q rest, rfl, ?_, ?_, ?_, ?_⟩
      · simp [fillQuartersGo_length]
      · intro i v h
        cases i with
        | zero => simpa using h
        | succ i => simpa using fillQuartersGo_known q rest i v (by simpa using h)
      · intro i h
        cases i with
        | zero =>
          simpa using fillQuartersGo_head_missing q rest (by simpa using h)
        | succ i =>
          simpa using fillQuartersGo_missing q rest hcons i (by simpa using h)
      · intro i o h
        cases i with
        | zero =>
          simp at h
          simp [← h]
        | succ i => exact fillQuartersGo_some q rest i o (by simpa using h)

/-- Claim C8, witness: the fill evaluated on a concrete sequence with two
boundary gaps. -/
theorem C8_witness :
    ∃ out, fill_in_missing_quarters [some 1, none, some 2, none] = some out ∧
      out.length = 4 ∧ (∀ i o, out.get? i = some o → o ≠ none) := by
  obtain ⟨out, h1, h2, -, -, h5⟩ :=
    C8_thm [some 1, none, some 2, none] (by decide) (by decide)
  exact ⟨out, h1, by simpa using h2, h5⟩

/-! ## Claim C9 — team-alias resolution -/

/-- Claim C9 (confirmed): for every string fed to the alias lookups of
`map_ids`, resolution yields the record-level failure value (pandas `NaN`,
modelled as `none`) exactly when the string matches no alias of the table,
and otherwise yields the single canonical team identifier recorded for that
alias (lookup is deterministic and the tables have no duplicate keys). -/
theorem C9_thm (s : String) :
    ((resolveTeamId s = none ↔ ∀ p ∈ team_id_mapping, p.1 ≠ s) ∧
      ∀ v, resolveTeamId s = some v →
        (s, v) ∈ team_id_mapping ∧ ∀ w, (s, w) ∈ team_id_mapping → w = v) ∧
    ((resolveOppId s = none ↔ ∀ p ∈ opp_id_mapping, p.1 ≠ s) ∧
      ∀ v, resolveOppId s = some v →
        (s, v) ∈ opp_id_mapping ∧ ∀ w, (s, w) ∈ opp_id_mapping → w = v) := by
  refine ⟨⟨lookup_eq_none_iff _ s, ?_⟩, ⟨lookup_eq_none_iff _ s, ?_⟩⟩
  · intro v hv
    have hm := lookup_mem _ s v hv
    exact ⟨hm, fun w hw => mem_keys_unique _ team_keys_nodup s w v hw hm⟩
  · intro v hv
    have hm := lookup_mem _ s v hv
    exact ⟨hm, fun w hw => mem_keys_unique _ opp_keys_nodup s w v hw hm⟩

/-- Claim C9, witness: an unknown alias resolves to the failure value and a
known alias resolves to its canonical identifier. -/
theorem C9_witness :
    resolveTeamId "los-angeles-raiders" = none ∧
    ("green-bay-packers", "GB") ∈ team_id_mapping ∧
    resolveOppId "St. Louis" = some "LAR" := by
  refine ⟨((C9_thm "los-angeles-raiders").1.1).mpr (by decide), ?_, by decide⟩
  exact (((C9_thm "green-bay-packers").1.2) "GB" (by decide)).1

/-! ## Claim C10 — season year from the game date -/

/-- Claim C10 (confirmed): the derived season year of a penalty record equals
the calendar year of the game date, except that dates in January through
March (month at most 3) are assigned to the preceding calendar year. -/
theorem C10_thm (y m : Int) :
    (m ≤ 3 → season_year y m = y - 1) ∧ (3 < m → season_year y m = y) := by
  constructor
  · intro h
    simp [season_year, h]
  · intro h
    simp [season_year, not_le.mpr h]

/-- Claim C10, witness: a January date belongs to the previous season and a
September date to its own calendar year. -/
theorem C10_witness : season_year 2024 1 = 2023 ∧ season_year 2024 9 = 2024 := by
  constructor
  · rw [(C10_thm 2024 1).1 (by decide)]
    decide
  · exact (C10_thm 2024 9).2 (by decide)

end NFL
